import Mathlib

/-!
# Verification of the LegalLens contract-analysis client

Shallow embedding of the repository's data model and the operations named by
the specification: the persistence adapter (`storageService`), the analysis
client (`geminiService`), the batch upload orchestrator (`ContractUpload`)
and the comparison view's recommendation resolution (`CompareView`).

External effects (the AI backend call, the browser `FileReader`, the
`localStorage` write) are modelled as explicit parameters holding the settled
outcome of the single call the embedded function performs; JavaScript
`JSON.stringify`/`JSON.parse` are modelled as an encoding of the typed data
model into a JSON value tree, so that losslessness is a provable statement.
-/

namespace LegalLens

/-! ## Data model (`types.ts`) -/

/-- `RiskLevel` enum from `types.ts` (`'Low' | 'Medium' | 'High'`). -/
inductive RiskLevel
  | low
  | medium
  | high
deriving DecidableEq, Repr

/-- The string value each `RiskLevel` member carries in `types.ts`. -/
def RiskLevel.toStr : RiskLevel → String
  | .low => "Low"
  | .medium => "Medium"
  | .high => "High"

/-- `QAPair` from `types.ts`: `{question, answer, timestamp}`. -/
structure QAPair where
  question : String
  answer : String
  timestamp : Int
deriving DecidableEq, Repr

/-- `Clause` from `types.ts`. `conversationHistory` is optional. -/
structure Clause where
  id : String
  text : String
  explanation : String
  riskLevel : RiskLevel
  riskyKeywords : List String
  reason : String
  conversationHistory : Option (List QAPair)
deriving DecidableEq, Repr

/-- `ContractAnalysis` from `types.ts`. `riskScore` and `fullText` are
optional. -/
structure ContractAnalysis where
  summary : String
  overallRisk : RiskLevel
  riskScore : Option Int
  clauses : List Clause
  fullText : Option String
deriving DecidableEq, Repr

/-- The `status` union of `Contract` in `types.ts`:
`'pending' | 'analyzed' | 'error'`. -/
inductive CStatus
  | pending
  | analyzed
  | error
deriving DecidableEq, Repr

/-- The string value of each `CStatus` member. -/
def CStatus.toStr : CStatus → String
  | .pending => "pending"
  | .analyzed => "analyzed"
  | .error => "error"

/-- `Contract` from `types.ts`. `analysis`, `fileData` and `mimeType` are
optional. -/
structure Contract where
  id : String
  userId : String
  fileName : String
  uploadDate : Int
  status : CStatus
  analysis : Option ContractAnalysis
  fileData : Option String
  mimeType : Option String
deriving DecidableEq, Repr

/-- The `sourceType` union of `RecentAnalysis`: `'file' | 'text'`. -/
inductive SourceType
  | file
  | text
deriving DecidableEq, Repr

/-- `RecentAnalysis` from `types.ts`. -/
structure RecentAnalysis where
  id : String
  name : String
  createdAt : String
  sourceType : SourceType
  fileName : Option String
  rawText : String
  riskScore : Int
  riskSummary : String
  summary : List String
  clauses : List Clause
deriving DecidableEq, Repr

/-- `User` from `types.ts`. -/
structure User where
  id : String
  email : String
  name : String
deriving DecidableEq, Repr

/-- The `role` union of `ChatMessage`: `'user' | 'model'`. -/
inductive ChatRole
  | user
  | model
deriving DecidableEq, Repr

/-- `ChatMessage` from `types.ts`. -/
structure ChatMessage where
  role : ChatRole
  text : String
  timestamp : Int
deriving DecidableEq, Repr

/-- `ComparisonResult` from `types.ts`. -/
structure ComparisonResult where
  recommendedId : String
  reasoning : String
  keyDifferences : List String
deriving DecidableEq, Repr

/-! ## Recent-analyses cache (`storageService.saveRecentAnalysis`)

```ts
const recent = storageService.getRecentAnalyses();
// Remove if exists to move to top
const filtered = recent.filter(r => r.id !== analysis.id);
const updated = [analysis, ...filtered].slice(0, 10); // Keep last 10
```
The stored list is the pure function of the previously stored list below. -/

/-- `storageService.saveRecentAnalysis`, as the transformation it applies to
the stored recent-analyses list: filter out entries with the same `id`,
prepend the new entry, truncate to 10. -/
def saveRecentAnalysis (recent : List RecentAnalysis) (analysis : RecentAnalysis) :
    List RecentAnalysis :=
  let filtered := recent.filter (fun r => r.id != analysis.id)
  (analysis :: filtered).take 10

/-! ## JSON values

`storageService` persists data with `JSON.stringify` and reads it back with
`JSON.parse`.  We model the serialized form as a JSON value tree (the
composition `JSON.parse ∘ JSON.stringify` is the identity on such trees), and
give the encoding that `JSON.stringify` performs on the typed data model.
Optional (`undefined`) fields are omitted from the object, exactly as
`JSON.stringify` drops `undefined` properties. -/

/-- A JSON value. Numbers are modelled as integers: every number stored by
this program (`uploadDate`, `timestamp`, `riskScore`) is integral. -/
inductive Json
  | null
  | bool (b : Bool)
  | num (n : Int)
  | str (s : String)
  | arr (elems : List Json)
  | obj (fields : List (String × Json))

/-- Look up a field of a JSON object (first binding wins, as in a JS
object literal built without duplicate keys). -/
def jGet (fields : List (String × Json)) (key : String) : Option Json :=
  match fields.find? (fun p => p.1 == key) with
  | some p => some p.2
  | none => none

/-- A field that is present only when the optional value is defined,
modelling `JSON.stringify` dropping `undefined` properties. -/
def optField (key : String) : Option Json → List (String × Json)
  | some j => [(key, j)]
  | none => []

/-- Decode a JSON string. -/
def decStr : Json → Option String
  | .str s => some s
  | _ => none

/-- Decode a JSON integer. -/
def decNum : Json → Option Int
  | .num n => some n
  | _ => none

/-- Decode every element of a JSON array, failing if any element fails. -/
def decList (d : Json → Option α) : List Json → Option (List α)
  | [] => some []
  | j :: rest =>
    match d j, decList d rest with
    | some a, some as => some (a :: as)
    | _, _ => none

/-- Decode an optional field: an absent field is `none`. -/
def decOpt (d : Json → Option α) : Option Json → Option (Option α)
  | none => some none
  | some j => (d j).map some

/-- Encode a `RiskLevel` as its string value. -/
def encRisk (r : RiskLevel) : Json := .str r.toStr

/-- Decode a `RiskLevel` from its string value. -/
def decRisk : Json → Option RiskLevel
  | .str "Low" => some .low
  | .str "Medium" => some .medium
  | .str "High" => some .high
  | _ => none

/-- Encode a `CStatus` as its string value. -/
def encCStatus (s : CStatus) : Json := .str s.toStr

/-- Decode a `CStatus` from its string value. -/
def decCStatus : Json → Option CStatus
  | .str "pending" => some .pending
  | .str "analyzed" => some .analyzed
  | .str "error" => some .error
  | _ => none

/-- Encode a `QAPair`. -/
def encQAPair (q : QAPair) : Json :=
  .obj [("question", .str q.question), ("answer", .str q.answer),
        ("timestamp", .num q.timestamp)]

/-- Decode a `QAPair`. -/
def decQAPair : Json → Option QAPair
  | .obj f => do
    let q ← jGet f "question" >>= decStr
    let a ← jGet f "answer" >>= decStr
    let t ← jGet f "timestamp" >>= decNum
    some ⟨q, a, t⟩
  | _ => none

/-- Encode a `Clause` (optional `conversationHistory` omitted when absent). -/
def encClause (c : Clause) : Json :=
  .obj ([("id", .str c.id), ("text", .str c.text),
         ("explanation", .str c.explanation),
         ("riskLevel", encRisk c.riskLevel),
         ("riskyKeywords", .arr (c.riskyKeywords.map Json.str)),
         ("reason", .str c.reason)] ++
        optField "conversationHistory"
          (c.conversationHistory.map (fun h => .arr (h.map encQAPair))))

/-- Decode a JSON array of strings. -/
def decStrArr : Json → Option (List String)
  | .arr xs => decList decStr xs
  | _ => none

/-- Decode a JSON array of `QAPair`s. -/
def decQAArr : Json → Option (List QAPair)
  | .arr xs => decList decQAPair xs
  | _ => none

/-- Decode a `Clause`. -/
def decClause : Json → Option Clause
  | .obj f => do
    let id ← jGet f "id" >>= decStr
    let text ← jGet f "text" >>= decStr
    let explanation ← jGet f "explanation" >>= decStr
    let riskLevel ← jGet f "riskLevel" >>= decRisk
    let riskyKeywords ← jGet f "riskyKeywords" >>= decStrArr
    let reason ← jGet f "reason" >>= decStr
    let hist ← decOpt decQAArr (jGet f "conversationHistory")
    some ⟨id, text, explanation, riskLevel, riskyKeywords, reason, hist⟩
  | _ => none

/-- Decode a JSON array of `Clause`s. -/
def decClauseArr : Json → Option (List Clause)
  | .arr xs => decList decClause xs
  | _ => none

/-- Encode a `ContractAnalysis`. -/
def encAnalysis (a : ContractAnalysis) : Json :=
  .obj ([("summary", .str a.summary), ("overallRisk", encRisk a.overallRisk)] ++
        optField "riskScore" (a.riskScore.map Json.num) ++
        [("clauses", .arr (a.clauses.map encClause))] ++
        optField "fullText" (a.fullText.map Json.str))

/-- Decode a `ContractAnalysis`. -/
def decAnalysis : Json → Option ContractAnalysis
  | .obj f => do
    let summary ← jGet f "summary" >>= decStr
    let overallRisk ← jGet f "overallRisk" >>= decRisk
    let riskScore ← decOpt decNum (jGet f "riskScore")
    let clauses ← jGet f "clauses" >>= decClauseArr
    let fullText ← decOpt decStr (jGet f "fullText")
    some ⟨summary, overallRisk, riskScore, clauses, fullText⟩
  | _ => none

/-- Encode a `Contract` exactly as `JSON.stringify` serializes the
`Contract` objects built by this program. -/
def encContract (c : Contract) : Json :=
  .obj ([("id", .str c.id), ("userId", .str c.userId),
         ("fileName", .str c.fileName), ("uploadDate", .num c.uploadDate),
         ("status", encCStatus c.status)] ++
        optField "analysis" (c.analysis.map encAnalysis) ++
        optField "fileData" (c.fileData.map Json.str) ++
        optField "mimeType" (c.mimeType.map Json.str))

/-- Decode a `Contract`. -/
def decContract : Json → Option Contract
  | .obj f => do
    let id ← jGet f "id" >>= decStr
    let userId ← jGet f "userId" >>= decStr
    let fileName ← jGet f "fileName" >>= decStr
    let uploadDate ← jGet f "uploadDate" >>= decNum
    let status ← jGet f "status" >>= decCStatus
    let analysis ← decOpt decAnalysis (jGet f "analysis")
    let fileData ← decOpt decStr (jGet f "fileData")
    let mimeType ← decOpt decStr (jGet f "mimeType")
    some ⟨id, userId, fileName, uploadDate, status, analysis, fileData, mimeType⟩
  | _ => none

/-- Encode the stored contracts list (the value at key
`legallens_contracts`). -/
def encContracts (cs : List Contract) : Json := .arr (cs.map encContract)

/-- Decode the stored contracts list. -/
def decContracts : Json → Option (List Contract)
  | .arr xs => decList decContract xs
  | _ => none

/-! ### Losslessness of the encoding -/

theorem jGet_nil (k : String) : jGet [] k = none := rfl

theorem jGet_cons (k' k : String) (v : Json) (rest : List (String × Json)) :
    jGet ((k', v) :: rest) k = if k' == k then some v else jGet rest k := by
  by_cases h : (k' == k) = true
  · simp [jGet, List.find?_cons_of_pos, h]
  · simp only [Bool.not_eq_true] at h
    simp [jGet, List.find?_cons_of_neg, h]

theorem decList_enc (d : Json → Option α) (e : α → Json)
    (h : ∀ a, d (e a) = some a) (xs : List α) :
    decList d (xs.map e) = some xs := by
  induction xs with
  | nil => rfl
  | cons x rest ih => simp [decList, h, ih]

theorem decRisk_enc (r : RiskLevel) : decRisk (encRisk r) = some r := by
  cases r <;> rfl

theorem decCStatus_enc (s : CStatus) : decCStatus (encCStatus s) = some s := by
  cases s <;> rfl

theorem decQAPair_enc (q : QAPair) : decQAPair (encQAPair q) = some q := by
  cases q
  simp [decQAPair, encQAPair, jGet_cons, decStr, decNum]

theorem decClause_enc (c : Clause) : decClause (encClause c) = some c := by
  cases c with
  | mk id text explanation riskLevel riskyKeywords reason hist =>
    cases hist <;>
      simp [decClause, encClause, optField, jGet_cons, jGet_nil, decStr,
        decRisk_enc, decStrArr, decQAArr, decOpt,
        decList_enc decStr Json.str (fun _ => rfl),
        decList_enc decQAPair encQAPair decQAPair_enc]

theorem decAnalysis_enc (a : ContractAnalysis) :
    decAnalysis (encAnalysis a) = some a := by
  cases a with
  | mk summary overallRisk riskScore clauses fullText =>
    cases riskScore <;> cases fullText <;>
      simp [decAnalysis, encAnalysis, optField, jGet_cons, jGet_nil, decStr,
        decNum, decRisk_enc, decClauseArr, decOpt,
        decList_enc decClause encClause decClause_enc]

theorem decContract_enc (c : Contract) : decContract (encContract c) = some c := by
  cases c with
  | mk id userId fileName uploadDate status analysis fileData mimeType =>
    cases analysis <;> cases fileData <;> cases mimeType <;>
      simp [decContract, encContract, optField, jGet_cons, jGet_nil, decStr,
        decNum, decCStatus_enc, decOpt, decAnalysis_enc]

theorem decContracts_enc (cs : List Contract) :
    decContracts (encContracts cs) = some cs := by
  simp [decContracts, encContracts, decList_enc decContract encContract decContract_enc]

/-! ## Contract persistence (`storageService.getContracts` / `saveContract`)

`localStorage` is modelled as an association list from keys to stored JSON
values (`setItem` prepends a binding that shadows older ones, `getItem`
returns the newest binding).  A stored value that does not decode as a
contracts list corresponds to the `catch` branches of the TS code
(`JSON.parse` failure): `getContracts` returns `[]` there. -/

/-- The browser `localStorage`, restricted to the values this program
stores: a key/JSON-value association list, newest binding first. -/
abbrev Storage := List (String × Json)

/-- `STORAGE_KEYS.CONTRACTS` in `storageService.ts`. -/
def contractsKey : String := "legallens_contracts"

/-- `localStorage.getItem`: the newest binding for `key`. -/
def storeGet (st : Storage) (key : String) : Option Json := jGet st key

/-- `localStorage.setItem`: prepend a binding that shadows older ones. -/
def storeSet (st : Storage) (key : String) (v : Json) : Storage :=
  (key, v) :: st

/-- The contracts list currently persisted: `JSON.parse` of the raw value at
`legallens_contracts`, `[]` when the key is absent
(`contractsRaw ? JSON.parse(contractsRaw) : []`) or unreadable. -/
def storedContracts (st : Storage) : List Contract :=
  match storeGet st contractsKey with
  | none => []
  | some raw => (decContracts raw).getD []

/-- `storageService.getContracts`: load the stored contracts list and filter
by `userId`; any read/parse failure yields `[]` (the `catch` branch). -/
def getContracts (st : Storage) (userId : String) : List Contract :=
  match storeGet st contractsKey with
  | none => List.filter (fun c => c.userId == userId) []
  | some raw =>
    match decContracts raw with
    | none => []
    | some contracts => contracts.filter (fun c => c.userId == userId)

/-- `storageService.saveContract`: load the stored list, replace the entry at
`findIndex(c => c.id === contract.id)` when one exists, otherwise `push`;
then `setItem` the re-serialized list.  `writeFails` is the external outcome
of `localStorage.setItem` (quota exceeded): when it fails, the error is
rethrown to the caller (`throw e`), modelled as `Except.error`. -/
def saveContract (writeFails : Bool) (st : Storage) (contract : Contract) :
    Except Unit Storage :=
  let contracts := storedContracts st
  let contracts' :=
    match contracts.findIdx? (fun c => c.id == contract.id) with
    | some i => contracts.set i contract
    | none => contracts ++ [contract]
  if writeFails then .error ()
  else .ok (storeSet st contractsKey (encContracts contracts'))

theorem getContracts_eq_filter (st : Storage) (userId : String) :
    getContracts st userId =
      (storedContracts st).filter (fun c => c.userId == userId) := by
  unfold getContracts storedContracts
  cases storeGet st contractsKey with
  | none => rfl
  | some raw =>
    cases hd : decContracts raw <;> simp [hd]

theorem storedContracts_storeSet (st : Storage) (cs : List Contract) :
    storedContracts (storeSet st contractsKey (encContracts cs)) = cs := by
  unfold storedContracts storeGet storeSet
  rw [jGet_cons]
  simp [decContracts_enc]

theorem storedContracts_after_save (st : Storage) (c : Contract) (st' : Storage)
    (h : saveContract false st c = .ok st') :
    storedContracts st' =
      match (storedContracts st).findIdx? (fun x => x.id == c.id) with
      | some i => (storedContracts st).set i c
      | none => storedContracts st ++ [c] := by
  unfold saveContract at h
  simp only [Bool.false_eq_true, if_false, Except.ok.injEq] at h
  subst h
  rw [storedContracts_storeSet]

/-! ## Analysis client (`geminiService`)

Each service function performs at most one backend
(`ai.models.generateContent`) call.  The settled outcome of that call is the
`backend` parameter: `Except.error e` models a rejected call whose error
object has message `e` (the empty string models an error without a message,
`if (error.message)` being falsy), and `Except.ok t` models a resolved call
whose `response.text` is `t` (`none` models `undefined`, and the empty string
is likewise falsy where the code tests `response.text`).  `JSON.parse` of the
cleaned response text is the external `parse` parameter.  The prompt text,
schema and model name sent with the request do not influence the control
flow modelled here. -/

/-- Whether `pat` occurs as a contiguous substring of `s`
(JavaScript `String.prototype.includes`). -/
def charsContain (pat : List Char) : List Char → Bool
  | [] => pat.isEmpty
  | c :: rest => pat.isPrefixOf (c :: rest) || charsContain pat rest

/-- `msg.includes(pat)` on strings. -/
def strContains (s pat : String) : Bool := charsContain pat.data s.data

/-- The error taxonomy of the spec: quota/rate-limit, auth/key,
payload-too-large, service-unavailable, content-safety-block,
malformed-response, with an unexpected/unclassified fallback bucket. -/
inductive ErrorKind
  | quota
  | auth
  | payloadTooLarge
  | serviceUnavailable
  | contentSafetyBlock
  | malformedResponse
  | unexpected
deriving DecidableEq, Repr

/-- The kind that `handleGenAIError` selects for a raw error message, by the
same substring tests, in the same order, on the lowercased message.  The
empty string models an error object without a `message`. -/
def classifyGenAIError (msg : String) : ErrorKind :=
  if msg = "" then .unexpected
  else
    let m := msg.toLower
    if strContains m "429" || strContains m "quota" || strContains m "resource exhausted" then
      .quota
    else if strContains m "403" || strContains m "key" || strContains m "permission" then
      .auth
    else if strContains m "413" || strContains m "too large" then
      .payloadTooLarge
    else if strContains m "503" || strContains m "overloaded" || strContains m "unavailable" then
      .serviceUnavailable
    else if strContains m "safety" || strContains m "blocked" then
      .contentSafetyBlock
    else if strContains m "json" || strContains m "parse" then
      .malformedResponse
    else .unexpected

/-- The user-facing message `handleGenAIError` produces for each kind.
The unexpected bucket keeps the initial default message when the raw error
has no message, and prefixes the raw message with `Processing failed:`
otherwise. -/
def kindMessage (kind : ErrorKind) (msg : String) : String :=
  match kind with
  | .quota => "AI usage limit exceeded. Please try again in a few moments."
  | .auth => "Authentication failed. Please check the system configuration."
  | .payloadTooLarge => "The document is too large for the AI to process."
  | .serviceUnavailable => "AI service is temporarily unavailable. Please retry."
  | .contentSafetyBlock => "The document was flagged by safety settings and could not be analyzed."
  | .malformedResponse => "Received an invalid response format from AI. Please retry."
  | .unexpected =>
    if msg = "" then "An unexpected error occurred during processing."
    else "Processing failed: " ++ msg

/-- `handleGenAIError` from `geminiService`: map a raw backend error message
to the single user-facing message of its taxonomy kind.  (In the source the
mapped message is thrown; the hard-path functions below wrap it in
`Except.error`.) -/
def handleGenAIError (msg : String) : String :=
  if msg = "" then "An unexpected error occurred during processing."
  else
    let m := msg.toLower
    if strContains m "429" || strContains m "quota" || strContains m "resource exhausted" then
      "AI usage limit exceeded. Please try again in a few moments."
    else if strContains m "403" || strContains m "key" || strContains m "permission" then
      "Authentication failed. Please check the system configuration."
    else if strContains m "413" || strContains m "too large" then
      "The document is too large for the AI to process."
    else if strContains m "503" || strContains m "overloaded" || strContains m "unavailable" then
      "AI service is temporarily unavailable. Please retry."
    else if strContains m "safety" || strContains m "blocked" then
      "The document was flagged by safety settings and could not be analyzed."
    else if strContains m "json" || strContains m "parse" then
      "Received an invalid response format from AI. Please retry."
    else "Processing failed: " ++ msg

/-- The substrings `handleGenAIError` tests for, over all six classified
kinds. -/
def taxonomySubstrings : List String :=
  ["429", "quota", "resource exhausted", "403", "key", "permission",
   "413", "too large", "503", "overloaded", "unavailable",
   "safety", "blocked", "json", "parse"]

/-- Strip a leading/trailing markdown code fence, modelling
`cleanText.replace(/^((json)?\n?/i, ...).replace(/($/, ...)` applied after
the `startsWith` guard (with backticks in place of parentheses). -/
def stripFences (s : String) : String :=
  if s.startsWith "```" then
    let s1 := s.drop 3
    let s2 := if (s1.take 4).toLower = "json" then s1.drop 4 else s1
    let s3 := if s2.startsWith "\n" then s2.drop 1 else s2
    if s3.endsWith "```" then s3.dropRight 3 else s3
  else s

/-- `parseJSONResponse` from `geminiService`: reject an absent or empty
response text, strip markdown fences from the trimmed text, then hand the
cleaned text to `JSON.parse` (the `parse` oracle); a `JSON.parse` failure
becomes the fixed invalid-JSON message.  Thrown errors are modelled as
`Except.error`. -/
def parseJSONResponse (parse : String → Option α) (text : Option String) :
    Except String α :=
  match text with
  | none => .error "Empty response from AI service."
  | some t =>
    if t = "" then .error "Empty response from AI service."
    else
      let cleanText := stripFences t.trim
      match parse cleanText with
      | some v => .ok v
      | none => .error "Failed to parse AI response. The model output was not valid JSON."

/-- `analyzeContract` from `geminiService`: reject a missing API key before
any backend call; otherwise the backend outcome is parsed, and any failure
inside the `try` block (backend rejection or parse error) is mapped by
`handleGenAIError`. -/
def analyzeContract (apiKey : String) (backend : Except String (Option String))
    (parse : String → Option ContractAnalysis)
    (base64Data mimeType : String) : Except String ContractAnalysis :=
  if apiKey = "" then
    .error "API Key is missing. Please set process.env.API_KEY."
  else
    match backend with
    | .error e => .error (handleGenAIError e)
    | .ok text =>
      match parseJSONResponse parse text with
      | .ok v => .ok v
      | .error pe => .error (handleGenAIError pe)

/-- `askClauseQuestion` from `geminiService`: always resolves to a string;
a missing API key short-circuits to `"API Key missing."`, an absent or empty
response text falls back to a fixed string, and a backend rejection is
caught and degraded to the fixed apology string. -/
def askClauseQuestion (apiKey : String) (backend : Except String (Option String))
    (clauseText question : String) : String :=
  if apiKey = "" then "API Key missing."
  else
    match backend with
    | .ok (some s) => if s = "" then "Could not generate an answer." else s
    | .ok none => "Could not generate an answer."
    | .error _ => "Sorry, I couldn\x27t answer that right now due to a connection issue."

/-- `sendChatMessage` from `geminiService`: same soft-failure shape as
`askClauseQuestion`, with its own fallback and apology strings. -/
def sendChatMessage (apiKey : String) (backend : Except String (Option String))
    (history : List ChatMessage) (newMessage contractContext : String) : String :=
  if apiKey = "" then "API Key missing."
  else
    match backend with
    | .ok (some s) => if s = "" then "I couldn\x27t generate a response." else s
    | .ok none => "I couldn\x27t generate a response."
    | .error _ => "Sorry, I\x27m having trouble connecting right now. Please try again."

/-- `compareContracts` from `geminiService`: reject a missing API key before
any backend call; otherwise parse the backend outcome and map any failure in
the `try` block through `handleGenAIError`, propagating it to the caller. -/
def compareContracts (apiKey : String) (backend : Except String (Option String))
    (parse : String → Option ComparisonResult)
    (contracts : List Contract) : Except String ComparisonResult :=
  if apiKey = "" then .error "API Key missing"
  else
    match backend with
    | .error e => .error (handleGenAIError e)
    | .ok text =>
      match parseJSONResponse parse text with
      | .ok v => .ok v
      | .error pe => .error (handleGenAIError pe)

/-! ## Recommended-contract resolution (`CompareView`)

```ts
const winner = contracts.find(c => c.id === comparison.recommendedId) || contracts[0];
```
`find` yields the first match or `undefined`; a `Contract` object is always
truthy, so `contracts[0]` is used exactly when no id matches. -/

/-- The displayed recommended contract in `CompareView`. -/
def resolveWinner (contracts : List Contract) (comparison : ComparisonResult) :
    Option Contract :=
  match contracts.find? (fun c => c.id == comparison.recommendedId) with
  | some c => some c
  | none => contracts.head?

/-! ## Batch upload orchestrator (`ContractUpload`)

Per-file state machine `pending -> processing -> success | error` with the
file list held in component state.  `processFile` performs three effectful
steps whose settled outcomes form the per-file environment `FileEnv`: the
`FileReader` base64 conversion, the `analyzeContract` call, and the
`storageService.saveContract` persistence (the `saveRecentAnalysis` call on
the success path updates the separate recent-analyses list modelled by
`saveRecentAnalysis` above and cannot fail, its `try/catch` swallowing
errors). -/

/-- The relevant part of a browser `File`: `name`, `type` (declared MIME
type) and `size` in bytes. -/
structure JSFile where
  name : String
  type : String
  size : Nat
deriving DecidableEq, Repr

/-- The `status` union of `FileUploadState`. -/
inductive FStatus
  | pending
  | processing
  | success
  | error
deriving DecidableEq, Repr

/-- `FileUploadState` from `ContractUpload`. -/
structure FileUploadState where
  file : JSFile
  status : FStatus
  error : Option String
  contract : Option Contract
deriving DecidableEq, Repr

/-- The `validTypes` allow-list of `validateAndAddFiles`. -/
def validTypes : List String :=
  ["application/pdf", "image/jpeg", "image/png", "image/webp"]

/-- The validation message for a file with a type outside the allow-list. -/
def invalidFormatMsg (name : String) : String :=
  "File \"" ++ name ++ "\" has an invalid format. Please upload PDF or Images."

/-- The validation message for an oversized file. -/
def tooLargeMsg (name : String) : String :=
  "File \"" ++ name ++ "\" is too large (>20MB)."

/-- One iteration of the `forEach` loop in `validateAndAddFiles`: an invalid
type or a size above 20 MiB overwrites the running `fileError` (the file is
not appended), a valid file is pushed onto `newFiles` as `pending`. -/
def validateStep (acc : List FileUploadState × Option String) (file : JSFile) :
    List FileUploadState × Option String :=
  if !validTypes.contains file.type then
    (acc.1, some (invalidFormatMsg file.name))
  else if file.size > 20 * 1024 * 1024 then
    (acc.1, some (tooLargeMsg file.name))
  else
    (acc.1 ++ [⟨file, .pending, none, none⟩], acc.2)

/-- `validateAndAddFiles` from `ContractUpload`, as the transformation of the
component state `(files, globalError)` it performs: valid files are appended
to the batch in arrival order, and `globalError` is set to the final
`fileError` (which also clears a previous error when the new batch is fully
valid).  The previous `globalError` is a parameter only to exhibit that the
result never depends on it. -/
def validateAndAddFiles (prev : List FileUploadState) (prevError : Option String)
    (fileList : List JSFile) : List FileUploadState × Option String :=
  let r := fileList.foldl validateStep ([], none)
  (prev ++ r.1, r.2)

/-- A file passes validation iff its type is in the allow-list and its size
is at most 20 MiB. -/
def isValidFile (f : JSFile) : Bool :=
  validTypes.contains f.type && !(decide (f.size > 20 * 1024 * 1024))

/-- The message `validateAndAddFiles` produces for an invalid file (the type
check precedes the size check). -/
def errMsgFor (f : JSFile) : String :=
  if !validTypes.contains f.type then invalidFormatMsg f.name
  else tooLargeMsg f.name

/-- The settled outcomes of the three effectful steps of `processFile` on one
file: the `FileReader` conversion, the `analyzeContract` call and the
`saveContract` write, together with the generated contract id and the
`Date.now()` timestamp. -/
structure FileEnv where
  readResult : Except String String
  analyzeOutcome : Except String ContractAnalysis
  saveFails : Bool
  newId : String
  now : Int

/-- `'Failed to analyze due to an unexpected error.'`: the fallback of the
`catch` block of `processFile` when the thrown error has no message. -/
def genericFailureMsg : String := "Failed to analyze due to an unexpected error."

/-- The message thrown by `processFile` when `saveContract` fails after a
successful analysis. -/
def storageFailMsg : String :=
  "Analyzed successfully but failed to save to browser storage. Check available disk space."

/-- `e.message || genericFailureMsg` in the `catch` block of `processFile`. -/
def messageOrDefault (m : String) : String :=
  if m = "" then genericFailureMsg else m

/-- `processFile` from `ContractUpload`: convert the file, analyze it, build
the new `Contract`, persist it; any failure along the way is caught and
returned as the same state with `status: error` and the failure message,
while success returns the state with `status: success` and the new contract.
A `saveContract` failure throws the distinguished `storageFailMsg` inside
the `try`, so it reaches the `catch` like the other failures. -/
def processFile (user : User) (env : FileEnv) (fileState : FileUploadState) :
    FileUploadState :=
  match env.readResult with
  | .error e => { fileState with status := .error, error := some (messageOrDefault e) }
  | .ok base64Data =>
    match env.analyzeOutcome with
    | .error e => { fileState with status := .error, error := some (messageOrDefault e) }
    | .ok analysis =>
      let newContract : Contract :=
        { id := env.newId
          userId := user.id
          fileName := fileState.file.name
          uploadDate := env.now
          status := .analyzed
          analysis := some analysis
          fileData := some base64Data
          mimeType := some fileState.file.type }
      if env.saveFails then
        { fileState with status := .error, error := some (messageOrDefault storageFailMsg) }
      else
        { fileState with status := .success, contract := some newContract }

/-- The synchronous `setFiles` update at the top of `handleAnalyzeAll`: every
`pending` or `error` entry becomes `processing` with its error cleared,
before any analysis request is issued. -/
def markProcessing (files : List FileUploadState) : List FileUploadState :=
  files.map (fun f =>
    if f.status == .pending || f.status == .error then
      { f with status := .processing, error := none }
    else f)

/-- `filesToProcess` in `handleAnalyzeAll`: the indexed entries of the
captured `files` array whose status is not `success`.  (The captured array
still carries the pre-mark statuses, exactly as the closure variable `files`
does in the source.) -/
def filesToProcess (files : List FileUploadState) : List (Nat × FileUploadState) :=
  files.enum.filter (fun item => item.2.status != .success)

/-- The settled results of the concurrently launched `processFile` calls,
joined by `Promise.all`.  `processFile` never rejects (its `catch` returns
an `error` state), so `Promise.all` here has all-settled semantics: the
result list is complete even when some entries failed. -/
def batchResults (user : User) (envs : Nat → FileEnv)
    (files : List FileUploadState) : List (Nat × FileUploadState) :=
  (filesToProcess files).map (fun item => (item.1, processFile user (envs item.1) item.2))

/-- The final `setFiles` update of `handleAnalyzeAll`: write every settled
result back at its index in one whole-list replacement. -/
def applyResults (prev : List FileUploadState)
    (results : List (Nat × FileUploadState)) : List FileUploadState :=
  results.foldl (fun next r => next.set r.1 r.2) prev

/-- The outcome of one `handleAnalyzeAll` invocation: the final file list
and the contract passed to `onUploadComplete`, when that callback fires. -/
structure BatchOutcome where
  files : List FileUploadState
  completion : Option Contract
deriving Repr

/-- `handleAnalyzeAll` from `ContractUpload`: mark pending/error entries as
processing, launch every non-success entry concurrently, join all results,
apply them back in one state update, and fire `onUploadComplete` exactly
when the batch holds a single file whose single result succeeded with a
contract. -/
def handleAnalyzeAll (user : User) (envs : Nat → FileEnv)
    (files : List FileUploadState) : BatchOutcome :=
  let marked := markProcessing files
  let results := batchResults user envs files
  let final := applyResults marked results
  let completion :=
    if files.length = 1 ∧ results.length = 1 then
      match results.head? with
      | some r => if r.2.status = .success then r.2.contract else none
      | none => none
    else none
  ⟨final, completion⟩

/-! ## Claim theorems -/

/-- **C5**: `saveRecentAnalysis` keeps the stored list at length at most 10
with the new entry in front, de-duplicated by `id` (re-insertion moves the
entry to the front), and an 11th distinct insertion drops the oldest (last)
entry. -/
theorem claim_C5 (recent : List RecentAnalysis) (a : RecentAnalysis) :
    (saveRecentAnalysis recent a).length ≤ 10 ∧
    (saveRecentAnalysis recent a).head? = some a ∧
    (saveRecentAnalysis recent a).filter (fun r => r.id == a.id) = [a] ∧
    (recent.length = 10 → (∀ r ∈ recent, r.id ≠ a.id) →
      saveRecentAnalysis recent a = a :: recent.dropLast) := by
  refine ⟨?_, ?_, ?_, ?_⟩
  · simp [saveRecentAnalysis]
  · rw [saveRecentAnalysis, show (10 : ℕ) = 9 + 1 from rfl, List.take_succ_cons]
    rfl
  · rw [saveRecentAnalysis, show (10 : ℕ) = 9 + 1 from rfl, List.take_succ_cons,
      List.filter_cons]
    have hnil :
        (List.take 9 (recent.filter (fun r => r.id != a.id))).filter
          (fun r => r.id == a.id) = [] := by
      rw [List.filter_eq_nil_iff]
      intro x hx
      have hx' := List.mem_of_mem_take hx
      have := (List.mem_filter.mp hx').2
      simp only [bne_iff_ne, ne_eq] at this
      simp [this]
    simp [hnil]
  · intro hlen hne
    have hfilter : recent.filter (fun r => r.id != a.id) = recent := by
      rw [List.filter_eq_self]
      intro r hr
      simpa using hne r hr
    rw [saveRecentAnalysis, hfilter, show (10 : ℕ) = 9 + 1 from rfl,
      List.take_succ_cons, List.dropLast_eq_take, hlen]

/-- Witness for C5 at a concrete 10-entry cache and a distinct new entry. -/
theorem claim_C5_witness :
    (saveRecentAnalysis
        (List.range 10 |>.map (fun i =>
          ⟨toString i, "", "", .file, none, "", 0, "", [], []⟩))
        ⟨"new", "", "", .file, none, "", 0, "", [], []⟩) =
      ⟨"new", "", "", .file, none, "", 0, "", [], []⟩ ::
        (List.range 10 |>.map (fun i =>
          ⟨toString i, "", "", .file, none, "", 0, "", [], []⟩)).dropLast :=
  (claim_C5 _ _).2.2.2 (by decide) (by decide)

/-- **C9**: when `recommendedId` matches no input contract id, the displayed
recommendation falls back to the first contract and resolution never fails
on a non-empty input; when it matches, the matching contract is selected. -/
theorem claim_C9 (contracts : List Contract) (comparison : ComparisonResult) :
    ((∀ c ∈ contracts, c.id ≠ comparison.recommendedId) →
      resolveWinner contracts comparison = contracts.head?) ∧
    (contracts ≠ [] → ∃ w, resolveWinner contracts comparison = some w) ∧
    ((∃ c ∈ contracts, c.id = comparison.recommendedId) →
      ∃ w, resolveWinner contracts comparison = some w ∧
        w.id = comparison.recommendedId ∧ w ∈ contracts) := by
  refine ⟨?_, ?_, ?_⟩
  · intro h
    have hnone : contracts.find? (fun c => c.id == comparison.recommendedId) = none := by
      rw [List.find?_eq_none]
      intro x hx
      simp [h x hx]
    rw [resolveWinner, hnone]
  · intro hne
    unfold resolveWinner
    cases hf : contracts.find? (fun c => c.id == comparison.recommendedId) with
    | some c => exact ⟨c, rfl⟩
    | none =>
      cases contracts with
      | nil => exact absurd rfl hne
      | cons x xs => exact ⟨x, rfl⟩
  · rintro ⟨c, hc, hid⟩
    have hsome : (contracts.find? (fun x => x.id == comparison.recommendedId)).isSome := by
      rw [List.find?_isSome]
      exact ⟨c, hc, by simp [hid]⟩
    rcases Option.isSome_iff_exists.mp hsome with ⟨w, hw⟩
    refine ⟨w, ?_, ?_, List.mem_of_find?_eq_some hw⟩
    · rw [resolveWinner, hw]
    · have := List.find?_some hw
      simpa using this

/-- Witness for C9: a result recommending an absent id falls back to the
first contract of a concrete two-contract list. -/
theorem claim_C9_witness :
    resolveWinner
        [⟨"a", "u", "a.pdf", 0, .analyzed, none, none, none⟩,
         ⟨"b", "u", "b.pdf", 0, .analyzed, none, none, none⟩]
        ⟨"zzz", "r", []⟩ =
      ([⟨"a", "u", "a.pdf", 0, .analyzed, none, none, none⟩,
        ⟨"b", "u", "b.pdf", 0, .analyzed, none, none, none⟩] :
          List Contract).head? :=
  (claim_C9 _ _).1 (by decide)

/-- **C6**: the chat operations are total functions into `String` (they can
never raise), and whenever the backend call rejects they resolve to their
fixed apology strings. -/
theorem claim_C6 (apiKey : String) (bA bC : Except String (Option String))
    (clauseText question : String) (history : List ChatMessage)
    (newMessage contractContext : String) (eA eC : String) :
    (apiKey ≠ "" → bA = .error eA →
      askClauseQuestion apiKey bA clauseText question =
        "Sorry, I couldn\x27t answer that right now due to a connection issue.") ∧
    (apiKey ≠ "" → bC = .error eC →
      sendChatMessage apiKey bC history newMessage contractContext =
        "Sorry, I\x27m having trouble connecting right now. Please try again.") := by
  constructor
  · intro hk hb
    subst hb
    simp [askClauseQuestion, hk]
  · intro hk hb
    subst hb
    simp [sendChatMessage, hk]

/-- Witness for C6 at a concrete key and rejected backends. -/
theorem claim_C6_witness :
    askClauseQuestion "k" (.error "boom") "clause" "q" =
        "Sorry, I couldn\x27t answer that right now due to a connection issue." ∧
    sendChatMessage "k" (.error "boom") [] "hi" "" =
        "Sorry, I\x27m having trouble connecting right now. Please try again." :=
  ⟨(claim_C6 "k" (.error "boom") (.error "boom") "clause" "q" [] "hi" ""
      "boom" "boom").1 (by decide) rfl,
   (claim_C6 "k" (.error "boom") (.error "boom") "clause" "q" [] "hi" ""
      "boom" "boom").2 (by decide) rfl⟩

/-- **C10**: with an empty API key the hard-path operations reject with the
API-key error without consulting the backend (their result is independent
of every backend outcome), while the soft-path chat operations resolve
successfully to the literal string `"API Key missing."` — which a backend
could also produce as a normal answer, so chat callers cannot distinguish
the two. -/
theorem claim_C10 (bA bC : Except String (Option String))
    (parseA : String → Option ContractAnalysis)
    (parseC : String → Option ComparisonResult) (contracts : List Contract)
    (base64Data mimeType clauseText question : String)
    (history : List ChatMessage) (newMessage contractContext : String) :
    analyzeContract "" bA parseA base64Data mimeType =
      .error "API Key is missing. Please set process.env.API_KEY." ∧
    compareContracts "" bC parseC contracts = .error "API Key missing" ∧
    (∀ b b' p p', analyzeContract "" b p base64Data mimeType =
      analyzeContract "" b' p' base64Data mimeType) ∧
    (∀ b b' p p' cs cs', compareContracts "" b p cs =
      compareContracts "" b' p' cs') ∧
    askClauseQuestion "" bA clauseText question = "API Key missing." ∧
    sendChatMessage "" bC history newMessage contractContext = "API Key missing." ∧
    askClauseQuestion "k" (.ok (some "API Key missing."))
      clauseText question = "API Key missing." ∧
    sendChatMessage "k" (.ok (some "API Key missing."))
      history newMessage contractContext = "API Key missing." := by
  refine ⟨rfl, rfl, fun _ _ _ _ => rfl, fun _ _ _ _ _ _ => rfl, rfl, rfl, ?_, ?_⟩
  · simp [askClauseQuestion]
  · simp [sendChatMessage]

/-- **C4**: when the read and the analysis succeed but the save fails,
`processFile` returns the file with status `error` carrying the
distinguished analyzed-but-failed-to-save message (which states the analysis
succeeded and differs from the generic failure message), and alters no field
of the entry other than `status` and `error`. -/
theorem claim_C4 (user : User) (env : FileEnv) (fileState : FileUploadState)
    (base64 : String) (analysis : ContractAnalysis)
    (hread : env.readResult = .ok base64)
    (hana : env.analyzeOutcome = .ok analysis)
    (hsave : env.saveFails = true) :
    (processFile user env fileState).status = .error ∧
    (processFile user env fileState).error = some storageFailMsg ∧
    (∃ pre post, storageFailMsg = pre ++ "failed to save" ++ post) ∧
    (∃ post, storageFailMsg = "Analyzed successfully" ++ post) ∧
    storageFailMsg ≠ genericFailureMsg ∧
    (processFile user env fileState).file = fileState.file ∧
    (processFile user env fileState).contract = fileState.contract := by
  have hpf : processFile user env fileState =
      { fileState with status := .error,
                       error := some (messageOrDefault storageFailMsg) } := by
    unfold processFile
    rw [hread, hana, hsave]
    simp
  have hmsg : messageOrDefault storageFailMsg = storageFailMsg := by decide
  refine ⟨by rw [hpf], by rw [hpf, hmsg], ?_, ?_, by decide, by rw [hpf], by rw [hpf]⟩
  · exact ⟨"Analyzed successfully but ",
      " to browser storage. Check available disk space.", by decide⟩
  · exact ⟨" but failed to save to browser storage. Check available disk space.",
      by decide⟩

/-- Witness for C4 at a concrete environment with a failing save. -/
theorem claim_C4_witness :
    (processFile ⟨"u1", "e", "n"⟩
        ⟨.ok "b64", .ok ⟨"s", .low, none, [], none⟩, true, "cid", 0⟩
        ⟨⟨"a.pdf", "application/pdf", 5⟩, .pending, none, none⟩).status =
      .error ∧
    (processFile ⟨"u1", "e", "n"⟩
        ⟨.ok "b64", .ok ⟨"s", .low, none, [], none⟩, true, "cid", 0⟩
        ⟨⟨"a.pdf", "application/pdf", 5⟩, .pending, none, none⟩).error =
      some storageFailMsg :=
  ⟨(claim_C4 _ _ _ "b64" ⟨"s", .low, none, [], none⟩ rfl rfl rfl).1,
   (claim_C4 _ _ _ "b64" ⟨"s", .low, none, [], none⟩ rfl rfl rfl).2.1⟩

theorem getLast?_cons_or (f : α) (l : List α) :
    (f :: l).getLast? = match l.getLast? with
      | none => some f
      | some y => some y := by
  cases l with
  | nil => rfl
  | cons y t =>
    rw [List.getLast?_cons_cons]
    cases h : (y :: t).getLast? with
    | some z => rfl
    | none => simp [List.getLast?_eq_none_iff] at h

theorem foldl_validateStep_files (fileList : List JSFile)
    (acc : List FileUploadState) (e : Option String) :
    (fileList.foldl validateStep (acc, e)).1 =
      acc ++ (fileList.filter isValidFile).map
        (fun f => (⟨f, .pending, none, none⟩ : FileUploadState)) := by
  induction fileList generalizing acc e with
  | nil => simp
  | cons f rest ih =>
    rw [List.foldl_cons]
    by_cases hmem : f.type ∈ validTypes
    · by_cases h2 : f.size > 20 * 1024 * 1024
      · have hv : isValidFile f = false := by simp [isValidFile, hmem, h2]
        have hstep : validateStep (acc, e) f = (acc, some (tooLargeMsg f.name)) := by
          simp [validateStep, hmem, h2]
        rw [hstep, ih]
        simp [List.filter_cons, hv]
      · have hv : isValidFile f = true := by simp [isValidFile, hmem, h2]
        have hstep : validateStep (acc, e) f =
            (acc ++ [⟨f, .pending, none, none⟩], e) := by
          simp [validateStep, hmem, h2]
        rw [hstep, ih]
        simp [List.filter_cons, hv]
    · have hv : isValidFile f = false := by simp [isValidFile, hmem]
      have hstep : validateStep (acc, e) f = (acc, some (invalidFormatMsg f.name)) := by
        simp [validateStep, hmem]
      rw [hstep, ih]
      simp [List.filter_cons, hv]

theorem foldl_validateStep_error (fileList : List JSFile)
    (acc : List FileUploadState) (e : Option String) :
    (fileList.foldl validateStep (acc, e)).2 =
      match (fileList.filter (fun f => !isValidFile f)).getLast? with
      | none => e
      | some f => some (errMsgFor f) := by
  induction fileList generalizing acc e with
  | nil => simp
  | cons f rest ih =>
    rw [List.foldl_cons]
    by_cases hmem : f.type ∈ validTypes
    · by_cases h2 : f.size > 20 * 1024 * 1024
      · have hv : isValidFile f = false := by simp [isValidFile, hmem, h2]
        have hm : errMsgFor f = tooLargeMsg f.name := by
          simp [errMsgFor, hmem]
        have hstep : validateStep (acc, e) f = (acc, some (tooLargeMsg f.name)) := by
          simp [validateStep, hmem, h2]
        rw [hstep, ih, List.filter_cons]
        simp only [hv, Bool.not_false, if_true]
        rw [getLast?_cons_or]
        cases (rest.filter (fun f => !isValidFile f)).getLast? <;> simp [hm]
      · have hv : isValidFile f = true := by simp [isValidFile, hmem, h2]
        have hstep : validateStep (acc, e) f =
            (acc ++ [⟨f, .pending, none, none⟩], e) := by
          simp [validateStep, hmem, h2]
        rw [hstep, ih, List.filter_cons]
        simp [hv]
    · have hv : isValidFile f = false := by simp [isValidFile, hmem]
      have hm : errMsgFor f = invalidFormatMsg f.name := by
        simp [errMsgFor, hmem]
      have hstep : validateStep (acc, e) f = (acc, some (invalidFormatMsg f.name)) := by
        simp [validateStep, hmem]
      rw [hstep, ih, List.filter_cons]
      simp only [hv, Bool.not_false, if_true]
      rw [getLast?_cons_or]
      cases (rest.filter (fun f => !isValidFile f)).getLast? <;> simp [hm]

/-- **C3**: `validateAndAddFiles` appends exactly the valid files of the
input, in arrival order, as `pending` entries (an invalid file is never
appended, so it can never become `processing`); the surfaced error is the
message of the last invalid file; at the step that processes any invalid
file, the running error is a message naming that file; and the surfaced
error is independent of the previously displayed message (replacement, not
accumulation). -/
theorem claim_C3 (prev : List FileUploadState) (prevError : Option String)
    (fileList : List JSFile) :
    (validateAndAddFiles prev prevError fileList).1 =
      prev ++ (fileList.filter isValidFile).map
        (fun f => (⟨f, .pending, none, none⟩ : FileUploadState)) ∧
    (validateAndAddFiles prev prevError fileList).2 =
      ((fileList.filter (fun f => !isValidFile f)).getLast?).map errMsgFor ∧
    (∀ l1 f l2, fileList = l1 ++ f :: l2 → isValidFile f = false →
      ((l1 ++ [f]).foldl validateStep ([], none)).2 = some (errMsgFor f)) ∧
    (∀ f, errMsgFor f = "File \"" ++ f.name ++ "\" has an invalid format. Please upload PDF or Images." ∨
      errMsgFor f = "File \"" ++ f.name ++ "\" is too large (>20MB).") ∧
    (validateAndAddFiles prev prevError fileList).2 =
      (validateAndAddFiles prev none fileList).2 := by
  refine ⟨?_, ?_, ?_, ?_, rfl⟩
  · simp only [validateAndAddFiles]
    rw [foldl_validateStep_files, List.nil_append]
  · simp only [validateAndAddFiles]
    rw [foldl_validateStep_error]
    cases (fileList.filter (fun f => !isValidFile f)).getLast? <;> rfl
  · intro l1 f l2 _ hinv
    rw [foldl_validateStep_error, List.filter_append, List.filter_cons]
    simp only [hinv, Bool.not_false, if_true, List.filter_nil]
    rw [List.getLast?_concat]
  · intro f
    by_cases hmem : f.type ∈ validTypes
    · right
      simp [errMsgFor, tooLargeMsg, hmem]
    · left
      simp [errMsgFor, invalidFormatMsg, hmem]

/-- Witness for C3: a concrete batch with one valid, one wrong-type and one
oversized file records the oversized message, and the step that processed
the wrong-type file had recorded a message naming it. -/
theorem claim_C3_witness :
    (validateAndAddFiles [] none
        [⟨"a.pdf", "application/pdf", 100⟩,
         ⟨"b.exe", "application/x-msdownload", 100⟩,
         ⟨"c.pdf", "application/pdf", 21 * 1024 * 1024⟩]).2 =
      some (errMsgFor ⟨"c.pdf", "application/pdf", 21 * 1024 * 1024⟩) ∧
    (([(⟨"a.pdf", "application/pdf", 100⟩ : JSFile)] ++
        [(⟨"b.exe", "application/x-msdownload", 100⟩ : JSFile)]).foldl validateStep
          ([], none)).2 =
      some (errMsgFor ⟨"b.exe", "application/x-msdownload", 100⟩) := by
  constructor
  · rw [(claim_C3 [] none
      [(⟨"a.pdf", "application/pdf", 100⟩ : JSFile),
       ⟨"b.exe", "application/x-msdownload", 100⟩,
       ⟨"c.pdf", "application/pdf", 21 * 1024 * 1024⟩]).2.1]
    rfl
  · exact (claim_C3 [] none
      [(⟨"a.pdf", "application/pdf", 100⟩ : JSFile),
       ⟨"b.exe", "application/x-msdownload", 100⟩,
       ⟨"c.pdf", "application/pdf", 21 * 1024 * 1024⟩]).2.2.1
      [⟨"a.pdf", "application/pdf", 100⟩]
      ⟨"b.exe", "application/x-msdownload", 100⟩
      [⟨"c.pdf", "application/pdf", 21 * 1024 * 1024⟩] rfl (by decide)

theorem handleGenAIError_eq (msg : String) :
    handleGenAIError msg = kindMessage (classifyGenAIError msg) msg := by
  simp only [handleGenAIError, classifyGenAIError]
  split_ifs <;> simp [kindMessage, *]

/-- **C7**: `compareContracts` propagates failure: whenever the backend call
rejects or the response fails to parse, it returns the error produced by
mapping the raw message — via the ordered substring tests of
`handleGenAIError` — to the message of exactly one taxonomy kind, and the
unexpected bucket is the fallback when no listed substring occurs. -/
theorem claim_C7 (apiKey : String) (backend : Except String (Option String))
    (parse : String → Option ComparisonResult) (contracts : List Contract)
    (hkey : apiKey ≠ "") :
    (∀ e, backend = .error e →
      compareContracts apiKey backend parse contracts =
        .error (kindMessage (classifyGenAIError e) e)) ∧
    (∀ t pe, backend = .ok t → parseJSONResponse parse t = .error pe →
      compareContracts apiKey backend parse contracts =
        .error (kindMessage (classifyGenAIError pe) pe)) ∧
    (∀ m, handleGenAIError m = kindMessage (classifyGenAIError m) m) ∧
    (∀ m, (∀ pat ∈ taxonomySubstrings, strContains m.toLower pat = false) →
      classifyGenAIError m = .unexpected) := by
  refine ⟨?_, ?_, handleGenAIError_eq, ?_⟩
  · intro e hb
    subst hb
    rw [← handleGenAIError_eq]
    simp [compareContracts, hkey]
  · intro t pe hb hp
    subst hb
    rw [← handleGenAIError_eq]
    simp [compareContracts, hkey, hp]
  · intro m hnone
    have h1 := hnone "429" (by simp [taxonomySubstrings])
    have h2 := hnone "quota" (by simp [taxonomySubstrings])
    have h3 := hnone "resource exhausted" (by simp [taxonomySubstrings])
    have h4 := hnone "403" (by simp [taxonomySubstrings])
    have h5 := hnone "key" (by simp [taxonomySubstrings])
    have h6 := hnone "permission" (by simp [taxonomySubstrings])
    have h7 := hnone "413" (by simp [taxonomySubstrings])
    have h8 := hnone "too large" (by simp [taxonomySubstrings])
    have h9 := hnone "503" (by simp [taxonomySubstrings])
    have h10 := hnone "overloaded" (by simp [taxonomySubstrings])
    have h11 := hnone "unavailable" (by simp [taxonomySubstrings])
    have h12 := hnone "safety" (by simp [taxonomySubstrings])
    have h13 := hnone "blocked" (by simp [taxonomySubstrings])
    have h14 := hnone "json" (by simp [taxonomySubstrings])
    have h15 := hnone "parse" (by simp [taxonomySubstrings])
    unfold classifyGenAIError
    split_ifs <;> simp_all

/-- Witness for C7: a quota-style backend rejection at a concrete key is
propagated as the quota-kind message. -/
theorem claim_C7_witness :
    compareContracts "k" (.error "quota exceeded") (fun _ => none) [] =
      .error (kindMessage (classifyGenAIError "quota exceeded") "quota exceeded") :=
  (claim_C7 "k" (.error "quota exceeded") (fun _ => none) [] (by decide)).1
    "quota exceeded" rfl

/-- **C8**: the JSON encoding of a `Contract` decodes back to the same value
(serialization is lossless for the whole schema); after a successful
`saveContract`, `getContracts` for the contract's `userId` contains an entry
equal to it; and saving over an existing id replaces that entry (the stored
list does not grow) while a fresh id is appended. -/
theorem claim_C8 (st : Storage) (c : Contract) (st' : Storage)
    (h : saveContract false st c = .ok st') :
    (∀ x : Contract, decContract (encContract x) = some x) ∧
    c ∈ getContracts st' c.userId ∧
    ((∃ x ∈ storedContracts st, x.id = c.id) →
      (storedContracts st').length = (storedContracts st).length) ∧
    ((∀ x ∈ storedContracts st, x.id ≠ c.id) →
      storedContracts st' = storedContracts st ++ [c]) := by
  have hst := storedContracts_after_save st c st' h
  refine ⟨decContract_enc, ?_, ?_, ?_⟩
  · rw [getContracts_eq_filter, List.mem_filter]
    refine ⟨?_, by simp⟩
    rw [hst]
    cases hidx : (storedContracts st).findIdx? (fun x => x.id == c.id) with
    | some i =>
      rcases List.findIdx?_eq_some_iff_getElem.mp hidx with ⟨hi, _, _⟩
      exact List.mem_set (storedContracts st) i hi c
    | none => simp
  · rintro ⟨x, hx, hid⟩
    cases hidx : (storedContracts st).findIdx? (fun y => y.id == c.id) with
    | some i =>
      rw [hst, hidx]
      simp
    | none =>
      rw [List.findIdx?_eq_none_iff] at hidx
      have := hidx x hx
      simp [hid] at this
  · intro hall
    have hidx : (storedContracts st).findIdx? (fun y => y.id == c.id) = none := by
      rw [List.findIdx?_eq_none_iff]
      intro x hx
      simpa using hall x hx
    rw [hst, hidx]

/-- Witness for C8: saving a fully populated contract into an empty store
makes it readable back, deep-equal, under its `userId`. -/
theorem claim_C8_witness :
    (⟨"c1", "u1", "a.pdf", 7, .analyzed,
        some ⟨"sum", .high, some 88,
          [⟨"cl1", "txt", "expl", .medium, ["kw"], "reason",
            some [⟨"q", "a", 3⟩]⟩], some "full"⟩,
        some "b64", some "application/pdf"⟩ : Contract) ∈
      getContracts
        (storeSet [] contractsKey (encContracts
          [⟨"c1", "u1", "a.pdf", 7, .analyzed,
            some ⟨"sum", .high, some 88,
              [⟨"cl1", "txt", "expl", .medium, ["kw"], "reason",
                some [⟨"q", "a", 3⟩]⟩], some "full"⟩,
            some "b64", some "application/pdf"⟩]))
        "u1" :=
  (claim_C8 []
    ⟨"c1", "u1", "a.pdf", 7, .analyzed,
      some ⟨"sum", .high, some 88,
        [⟨"cl1", "txt", "expl", .medium, ["kw"], "reason",
          some [⟨"q", "a", 3⟩]⟩], some "full"⟩,
      some "b64", some "application/pdf"⟩
    _ rfl).2.1

theorem applyResults_cons (prev : List FileUploadState)
    (r : Nat × FileUploadState) (rest : List (Nat × FileUploadState)) :
    applyResults prev (r :: rest) = applyResults (prev.set r.1 r.2) rest := rfl

theorem applyResults_length (results : List (Nat × FileUploadState))
    (prev : List FileUploadState) :
    (applyResults prev results).length = prev.length := by
  induction results generalizing prev with
  | nil => rfl
  | cons r rest ih =>
    rw [applyResults_cons, ih, List.length_set]

theorem applyResults_getElem?_of_not_mem
    (results : List (Nat × FileUploadState)) (prev : List FileUploadState)
    (i : Nat) (h : ∀ r ∈ results, r.1 ≠ i) :
    (applyResults prev results)[i]? = prev[i]? := by
  induction results generalizing prev with
  | nil => rfl
  | cons r rest ih =>
    rw [applyResults_cons, ih _ (fun x hx => h x (List.mem_cons_of_mem _ hx)),
      List.getElem?_set_ne (h r (List.mem_cons_self _ _))]

theorem applyResults_getElem?_of_mem
    (results : List (Nat × FileUploadState)) :
    ∀ (prev : List FileUploadState) (i : Nat) (v : FileUploadState),
      (i, v) ∈ results → (results.map Prod.fst).Nodup → i < prev.length →
      (applyResults prev results)[i]? = some v := by
  induction results with
  | nil =>
    intro prev i v hmem _ _
    cases hmem
  | cons r rest ih =>
    intro prev i v hmem hnodup hlen
    rw [applyResults_cons]
    rw [List.map_cons, List.nodup_cons] at hnodup
    rcases List.mem_cons.mp hmem with heq | hmem'
    · subst heq
      have hni : ∀ x ∈ rest, x.1 ≠ i := by
        intro x hx hxi
        apply hnodup.1
        have hmm := List.mem_map_of_mem Prod.fst hx
        rw [hxi] at hmm
        exact hmm
      rw [applyResults_getElem?_of_not_mem rest _ i hni]
      exact List.getElem?_set_self hlen
    · exact ih _ i v hmem' hnodup.2 (by simpa using hlen)

theorem batchResults_map_fst_nodup (user : User) (envs : Nat → FileEnv)
    (files : List FileUploadState) :
    ((batchResults user envs files).map Prod.fst).Nodup := by
  unfold batchResults filesToProcess
  rw [List.map_map]
  have hfst : (Prod.fst ∘ fun item : Nat × FileUploadState =>
      (item.1, processFile user (envs item.1) item.2)) = Prod.fst := rfl
  rw [hfst]
  exact List.Nodup.sublist
    ((List.filter_sublist files.enum).map Prod.fst)
    (List.nodup_enum_map_fst files)

theorem mem_batchResults (user : User) (envs : Nat → FileEnv)
    (files : List FileUploadState) (i : Nat) (f : FileUploadState)
    (hf : files[i]? = some f) (hns : f.status ≠ .success) :
    (i, processFile user (envs i) f) ∈ batchResults user envs files := by
  unfold batchResults filesToProcess
  refine List.mem_map.mpr ⟨(i, f), ?_, rfl⟩
  refine List.mem_filter.mpr ⟨List.mk_mem_enum_iff_getElem?.mpr ?_, by simp [hns]⟩
  simp [hf]

theorem batchResults_fst_ne_of_success (user : User) (envs : Nat → FileEnv)
    (files : List FileUploadState) (i : Nat) (f : FileUploadState)
    (hf : files[i]? = some f) (hs : f.status = .success) :
    ∀ r ∈ batchResults user envs files, r.1 ≠ i := by
  intro r hr hri
  unfold batchResults filesToProcess at hr
  rcases List.mem_map.mp hr with ⟨⟨j, g⟩, hjg, hrj⟩
  rcases List.mem_filter.mp hjg with ⟨henum, hgs⟩
  have hj : j = i := by
    rw [← hrj] at hri
    exact hri
  subst hj
  have hgf : files[j]? = some g := by
    simpa using List.mk_mem_enum_iff_getElem?.mp henum
  rw [hf] at hgf
  injection hgf with hgf
  rw [← hgf, hs] at hgs
  simp at hgs

/-- **C1**: on a batch-analyze, (a) every `pending`/`error` entry is marked
`processing` in the synchronous state update that precedes the analysis
requests; (b) the final state of every non-`success` entry is exactly the
settled result of its own `processFile` run — it depends only on that
entry's environment, so no other entry's failure can prevent it; (c)
`success` entries are left untouched; and (d) every `processFile` run
settles individually to `success` or `error` (it never propagates a
rejection that could cancel the join). -/
theorem claim_C1 (user : User) (envs : Nat → FileEnv)
    (files : List FileUploadState) :
    (∀ (i : Nat) (f : FileUploadState),
      files[i]? = some f → (f.status = .pending ∨ f.status = .error) →
      ∃ g, (markProcessing files)[i]? = some g ∧ g.status = .processing) ∧
    (∀ (i : Nat) (f : FileUploadState),
      files[i]? = some f → f.status ≠ .success →
      (handleAnalyzeAll user envs files).files[i]? =
        some (processFile user (envs i) f)) ∧
    (∀ (i : Nat) (f : FileUploadState),
      files[i]? = some f → f.status = .success →
      (handleAnalyzeAll user envs files).files[i]? = some f) ∧
    (∀ env fs, (processFile user env fs).status = .success ∨
      (processFile user env fs).status = .error) := by
  refine ⟨?_, ?_, ?_, ?_⟩
  · intro i f hf hpe
    unfold markProcessing
    rw [List.getElem?_map, hf]
    refine ⟨_, rfl, ?_⟩
    have : (f.status == FStatus.pending || f.status == FStatus.error) = true := by
      rcases hpe with h | h <;> simp [h]
    simp [this]
  · intro i f hf hns
    have hlen : i < files.length := (List.getElem?_eq_some.mp hf).1
    show (applyResults (markProcessing files) (batchResults user envs files))[i]? = _
    exact applyResults_getElem?_of_mem _ _ i _
      (mem_batchResults user envs files i f hf hns)
      (batchResults_map_fst_nodup user envs files)
      (by simpa [markProcessing] using hlen)
  · intro i f hf hs
    show (applyResults (markProcessing files) (batchResults user envs files))[i]? = _
    rw [applyResults_getElem?_of_not_mem _ _ i
      (batchResults_fst_ne_of_success user envs files i f hf hs)]
    unfold markProcessing
    rw [List.getElem?_map, hf]
    have : (f.status == FStatus.pending || f.status == FStatus.error) = false := by
      simp [hs]
    simp [this, hs]
  · intro env fs
    unfold processFile
    cases env.readResult with
    | error e => right; rfl
    | ok b =>
      cases env.analyzeOutcome with
      | error e => right; rfl
      | ok a =>
        by_cases hs : env.saveFails = true
        · right
          simp [hs]
        · left
          simp only [Bool.not_eq_true] at hs
          simp [hs]

/-- Witness for C1 at a concrete two-entry batch: a pending entry is marked
processing, and each entry's final state is the settled result of its own
run. -/
theorem claim_C1_witness :
    (∃ g, (markProcessing
        [⟨⟨"a.pdf", "application/pdf", 5⟩, .pending, none, none⟩,
         ⟨⟨"b.pdf", "application/pdf", 5⟩, .error, some "old", none⟩])[0]? =
          some g ∧ g.status = .processing) ∧
    (handleAnalyzeAll ⟨"u1", "e", "n"⟩
        (fun _ => ⟨.error "boom", .ok ⟨"s", .low, none, [], none⟩, false, "cid", 0⟩)
        [⟨⟨"a.pdf", "application/pdf", 5⟩, .pending, none, none⟩,
         ⟨⟨"b.pdf", "application/pdf", 5⟩, .error, some "old", none⟩]).files[1]? =
      some (processFile ⟨"u1", "e", "n"⟩
        ⟨.error "boom", .ok ⟨"s", .low, none, [], none⟩, false, "cid", 0⟩
        ⟨⟨"b.pdf", "application/pdf", 5⟩, .error, some "old", none⟩) :=
  ⟨(claim_C1 ⟨"u1", "e", "n"⟩
      (fun _ => ⟨.error "boom", .ok ⟨"s", .low, none, [], none⟩, false, "cid", 0⟩)
      _).1 0 _ rfl (Or.inl rfl),
   (claim_C1 ⟨"u1", "e", "n"⟩
      (fun _ => ⟨.error "boom", .ok ⟨"s", .low, none, [], none⟩, false, "cid", 0⟩)
      _).2.1 1 _ rfl (by decide)⟩

theorem processFile_success_contract (user : User) (env : FileEnv)
    (fs : FileUploadState) (h : (processFile user env fs).status = .success) :
    ∃ c : Contract, (processFile user env fs).contract = some c := by
  unfold processFile at h ⊢
  revert h
  cases env.readResult with
  | error e =>
    intro h
    simp at h
  | ok b =>
    cases env.analyzeOutcome with
    | error e =>
      intro h
      simp at h
    | ok a =>
      intro h
      by_cases hs : env.saveFails = true
      · simp [hs] at h
      · simp only [Bool.not_eq_true] at hs
        simp [hs]

/-- **C2**: when the batch holds exactly one file whose analysis finishes
`success`, `handleAnalyzeAll` fires the completion callback with that file's
resulting contract; a batch of two or more files never fires the automatic
completion callback, whatever the per-file outcomes. -/
theorem claim_C2 (user : User) (envs : Nat → FileEnv) (f : FileUploadState)
    (files : List FileUploadState) :
    (files = [f] → f.status ≠ .success →
      (processFile user (envs 0) f).status = .success →
      ∃ c : Contract, (processFile user (envs 0) f).contract = some c ∧
        (handleAnalyzeAll user envs files).completion = some c) ∧
    (2 ≤ files.length → (handleAnalyzeAll user envs files).completion = none) := by
  constructor
  · intro hfiles hns hsucc
    subst hfiles
    have hres : batchResults user envs [f] = [(0, processFile user (envs 0) f)] := by
      unfold batchResults filesToProcess
      simp [hns]
    rcases processFile_success_contract user (envs 0) f hsucc with ⟨c, hc⟩
    refine ⟨c, hc, ?_⟩
    simp only [handleAnalyzeAll, hres]
    simp [hsucc, hc]
  · intro h2
    have h1 : ¬ files.length = 1 := by omega
    simp [handleAnalyzeAll, h1]

/-- Witness for C2: a concrete single-file batch whose analysis, save and
cache steps succeed completes with the resulting contract, and a concrete
two-file batch never fires the callback. -/
theorem claim_C2_witness :
    (∃ c : Contract,
      (processFile ⟨"u1", "e", "n"⟩
          ⟨.ok "b64", .ok ⟨"s", .low, some 10, [], some "t"⟩, false, "cid", 5⟩
          ⟨⟨"a.pdf", "application/pdf", 5⟩, .pending, none, none⟩).contract =
        some c ∧
      (handleAnalyzeAll ⟨"u1", "e", "n"⟩
          (fun _ => ⟨.ok "b64", .ok ⟨"s", .low, some 10, [], some "t"⟩, false, "cid", 5⟩)
          [⟨⟨"a.pdf", "application/pdf", 5⟩, .pending, none, none⟩]).completion =
        some c) ∧
    (handleAnalyzeAll ⟨"u1", "e", "n"⟩
        (fun _ => ⟨.ok "b64", .ok ⟨"s", .low, some 10, [], some "t"⟩, false, "cid", 5⟩)
        [⟨⟨"a.pdf", "application/pdf", 5⟩, .pending, none, none⟩,
         ⟨⟨"b.pdf", "application/pdf", 5⟩, .pending, none, none⟩]).completion =
      none :=
  ⟨(claim_C2 ⟨"u1", "e", "n"⟩
      (fun _ => ⟨.ok "b64", .ok ⟨"s", .low, some 10, [], some "t"⟩, false, "cid", 5⟩)
      ⟨⟨"a.pdf", "application/pdf", 5⟩, .pending, none, none⟩
      [⟨⟨"a.pdf", "application/pdf", 5⟩, .pending, none, none⟩]).1
      rfl (by decide) (by decide),
   (claim_C2 ⟨"u1", "e", "n"⟩
      (fun _ => ⟨.ok "b64", .ok ⟨"s", .low, some 10, [], some "t"⟩, false, "cid", 5⟩)
      ⟨⟨"a.pdf", "application/pdf", 5⟩, .pending, none, none⟩
      [⟨⟨"a.pdf", "application/pdf", 5⟩, .pending, none, none⟩,
       ⟨⟨"b.pdf", "application/pdf", 5⟩, .pending, none, none⟩]).2
      (by decide)⟩

end LegalLens
